import Mathlib

/-!
Verification of the backup orchestrator in `backup.py` (Azure DevOps
repository backup tool).

The Python program is shallowly embedded as pure Lean functions.  All
interactions with the outside world (the REST API, subprocesses, the file
system, SMTP) are represented by an `Env` record of oracles describing what
the world would answer, and by an explicit trace of `Event`s recording every
externally visible action the program performs, in program order.  Python
exceptions are represented explicitly: a step oracle answers `ok` (the step
succeeds), `fail` (the step raises `subprocess.CalledProcessError`, the one
exception type `backup_repo` catches) or `escape` (the step raises some other
exception, which propagates out of `backup_repo` to `run_backup`'s top-level
handler).  Fallible computations return an `Option String` carrying the
escaped exception message, mirroring `try/except` blocks.
-/

namespace AzureDevOpsBackup

/-- Outcome of one external step (a subprocess call) as seen by the
surrounding Python code: success, a `CalledProcessError`, or an unexpected
exception that escapes the per-repository handler. -/
inductive StepOutcome
  | ok
  | fail
  | escape
deriving Repr, DecidableEq

/-- A repository as returned by `get_repos_by_project`: the dict
`{"name": ..., "clone_url": ...}` built from the REST answer. -/
structure Repo where
  name : String
  clone_url : String
deriving Repr, DecidableEq

/-- One manifest entry, the dict appended by `backup_repo` at line 173. -/
structure BackupEntry where
  project : String
  repo : String
  zip_file : String
  path : String
deriving Repr, DecidableEq

/-- Externally visible actions of the program, in program order.  Log
events carry the gist of the logged message; the file-affecting events carry
the paths the Python code computes. -/
inductive Event
  | logInfo (msg : String)
  | logWarning (msg : String)
  | logError (msg : String)
  | mkdir (path : String)
  | gitClone (url : String) (dest : String)
  | zipArchive (zipPath : String) (src : String)
  | azureUpload (localPath : String) (cloudPath : String)
  | awsUpload (localPath : String) (cloudPath : String)
  | rmTemp (path : String)
  | manifestWrite (path : String)
  | emailSend (success : Bool) (attachedManifest : Bool)
  | rmBackupRoot (path : String)
deriving Repr, DecidableEq

/-- The configuration of one run: the constructor arguments of class
`AzureDevOpsBackup` plus the run timestamp and the working directory
(`os.getcwd()`), which the constructor reads from the environment. -/
structure Config where
  organization : String
  pat_token : String
  excluded_projects : List String
  azure_backup : Bool
  aws_backup : Bool
  dry_run : Bool
  keep_local : Bool
  timestamp : String
  cwd : String
deriving Repr

/-- The oracle describing the outside world for one run.

* `projectsFetch` / `reposFetch`: the REST answers; `Except.error`
  represents a `requests.RequestException` raised by the transport.
* `cloneOutcome` / `zipOutcome`: how the `git clone` / `zip` subprocess for
  a given project and repository name terminates.
* `tempExists`: whether `os.path.exists` finds the temporary clone
  directory in the `finally` block after the clone was attempted.
* `azureUploadOk` / `awsUploadOk`: whether the upload of a given archive to
  the respective destination succeeds (failures are caught and logged).
* `writeManifestOk`: whether the manifest file write succeeds; a `False`
  represents an OS error escaping `write_manifest` to the top-level handler.
* `smtpOk`: whether SMTP delivery succeeds (failures are caught and logged).
-/
structure Env where
  projectsFetch : Except String (List String)
  reposFetch : String → Except String (List Repo)
  cloneOutcome : String → String → StepOutcome
  zipOutcome : String → String → StepOutcome
  tempExists : String → String → Bool
  azureUploadOk : String → Bool
  awsUploadOk : String → Bool
  writeManifestOk : Bool
  smtpOk : Bool

/- ------------------------------------------------------------------ -/
/- Path construction (lines 52-54, 166-168, 208, 237 of backup.py).    -/
/- `os.path.join` on POSIX concatenates with a slash.                  -/
/- ------------------------------------------------------------------ -/

/-- `self.backup_root = os.path.join(os.getcwd(), "backups", self.timestamp)`. -/
def backup_root (cfg : Config) : String :=
  cfg.cwd ++ "/backups/" ++ cfg.timestamp

/-- `os.path.dirname`: everything before the final path separator. -/
def dirname (p : String) : String :=
  String.intercalate "/" ((p.splitOn "/").dropLast)

/-- `os.path.relpath path start` for the case used by `upload_backup`,
where `start` is an ancestor directory of `path`: strip the leading
`start ++ "/"`. -/
def relpath (path start : String) : String :=
  if path.startsWith (start ++ "/") then
    path.drop (start ++ "/").length
  else path

/-- `project_dir = os.path.join(self.backup_root, f"(project)-(timestamp)")`
(line 208). -/
def project_dir (cfg : Config) (project : String) : String :=
  backup_root cfg ++ "/" ++ project ++ "-" ++ cfg.timestamp

/-- `zip_file_name = f"(project)-(repo_name)-(timestamp).zip"` (line 167). -/
def zip_file_name (cfg : Config) (project repo_name : String) : String :=
  project ++ "-" ++ repo_name ++ "-" ++ cfg.timestamp ++ ".zip"

/-- `manifest_file = os.path.join(self.backup_root,
f"manifest-(timestamp).json")` (lines 237 and 278). -/
def manifest_file_path (cfg : Config) : String :=
  backup_root cfg ++ "/manifest-" ++ cfg.timestamp ++ ".json"

/-- The dict appended to `self.manifest` for one scheduled
repository-backup attempt (lines 173-178): the entry is built from the
path-construction logic alone, before any clone or zip is attempted. -/
def scheduledEntry (cfg : Config) (project repo_name pdir : String) : BackupEntry :=
  { project := project
    repo := repo_name
    zip_file := zip_file_name cfg project repo_name
    path := pdir ++ "/" ++ zip_file_name cfg project repo_name }

/- ------------------------------------------------------------------ -/
/- Source Catalog (get_projects, get_repos_by_project).                -/
/- ------------------------------------------------------------------ -/

/-- `get_projects` (lines 81-93): fetch the project list, filter out the
excluded names; on `RequestException` log the error and return `[]`.  The
function is total: the exception never propagates past it. -/
def get_projects (cfg : Config) (env : Env) : List String × List Event :=
  match env.projectsFetch with
  | .ok data =>
      let projects := data.filter (fun p => !(cfg.excluded_projects.contains p))
      (projects, [.logInfo "Fetching projects", .logInfo "Found projects after exclusions"])
  | .error e =>
      ([], [.logInfo "Fetching projects", .logError ("Failed to fetch projects: " ++ e)])

/-- `get_repos_by_project` (lines 95-111): fetch the repository list of one
project; on `RequestException` log the error and return `[]`.  Total, like
`get_projects`. -/
def get_repos_by_project (cfg : Config) (env : Env) (project : String) : List Repo × List Event :=
  match env.reposFetch project with
  | .ok repos =>
      (repos, [.logInfo ("Fetching repos for project: " ++ project)])
  | .error e =>
      ([], [.logInfo ("Fetching repos for project: " ++ project),
            .logError ("Failed to fetch repos for " ++ project ++ ": " ++ e)])

/- ------------------------------------------------------------------ -/
/- Upload dispatch (upload_backup, lines 113-154).                     -/
/- ------------------------------------------------------------------ -/

/-- `upload_backup` (lines 113-154).  Computes the cloud path relative to
the `backups` base directory; in dry-run mode, or with both destinations
disabled, only logs; otherwise attempts each enabled destination
independently, logging a per-destination failure without raising. -/
def upload_backup (cfg : Config) (env : Env) (zip_file_path : String) : List Event :=
  let cloud_path := relpath zip_file_path (dirname (backup_root cfg))
  if cfg.dry_run then
    [.logInfo ("Dry run, skipping upload: " ++ cloud_path)]
  else if !cfg.azure_backup && !cfg.aws_backup then
    [.logInfo ("Cloud backup disabled, skipping upload for: " ++ cloud_path)]
  else
    [.logInfo ("Uploading backup: " ++ cloud_path)] ++
    (if cfg.azure_backup then
      [.azureUpload zip_file_path cloud_path] ++
      (if env.azureUploadOk zip_file_path then
        [.logInfo ("Uploaded to Azure Blob: " ++ cloud_path)]
      else
        [.logError ("Azure upload failed for " ++ cloud_path)])
    else []) ++
    (if cfg.aws_backup then
      [.awsUpload zip_file_path cloud_path] ++
      (if env.awsUploadOk zip_file_path then
        [.logInfo ("Uploaded to AWS S3: " ++ cloud_path)]
      else
        [.logError ("AWS upload failed for " ++ cloud_path)])
    else [])

/- ------------------------------------------------------------------ -/
/- Per-repository pipeline (backup_repo, lines 158-193).               -/
/- ------------------------------------------------------------------ -/

/-- Result of one `backup_repo` call: the manifest entry it appended, the
events it performed, and `some msg` when an exception escaped it. -/
structure RepoResult where
  entry : BackupEntry
  events : List Event
  escaped : Option String
deriving Repr

/-- The clone/zip/upload part of `backup_repo` (lines 180-193): the
dry-run early return, then the `try` with clone and zip, the upload on
success, the `except subprocess.CalledProcessError` handler, and the
`finally` that removes the temporary clone directory when it exists.
Returns the event trace and `some msg` when an exception other than
`CalledProcessError` escapes. -/
def backup_repo_steps (cfg : Config) (env : Env) (project : String) (repo : Repo)
    (pat_clone_url temp_clone_path zip_file_path : String) :
    List Event × Option String :=
  if cfg.dry_run then
    ([.logInfo "Dry run, skipping clone and zip"], none)
  else
    let finallyEvents :=
      if env.tempExists project repo.name then [Event.rmTemp temp_clone_path] else []
    match env.cloneOutcome project repo.name with
    | .escape =>
        ([Event.gitClone pat_clone_url temp_clone_path] ++ finallyEvents,
         some ("clone raised for " ++ project ++ "/" ++ repo.name))
    | .fail =>
        ([Event.gitClone pat_clone_url temp_clone_path,
          Event.logError ("Failed to backup " ++ project ++ "/" ++ repo.name)] ++ finallyEvents,
         none)
    | .ok =>
        match env.zipOutcome project repo.name with
        | .escape =>
            ([Event.gitClone pat_clone_url temp_clone_path,
              Event.zipArchive zip_file_path temp_clone_path] ++ finallyEvents,
             some ("zip raised for " ++ project ++ "/" ++ repo.name))
        | .fail =>
            ([Event.gitClone pat_clone_url temp_clone_path,
              Event.zipArchive zip_file_path temp_clone_path,
              Event.logError ("Failed to backup " ++ project ++ "/" ++ repo.name)] ++ finallyEvents,
             none)
        | .ok =>
            ([Event.gitClone pat_clone_url temp_clone_path,
              Event.zipArchive zip_file_path temp_clone_path,
              Event.logInfo ("Backup done: " ++ zip_file_path)] ++
             upload_backup cfg env zip_file_path ++ finallyEvents,
             none)

/-- `backup_repo` (lines 158-193).  Derives the authenticated clone URL
from the repository remote address (splitting on `/(organization)/` and, as
in the Python, keeping only the second piece), derives the temp clone path
and zip path, appends the manifest entry unconditionally, then runs the
clone/zip/upload steps. -/
def backup_repo (cfg : Config) (env : Env) (project : String) (repo : Repo)
    (pdir : String) : RepoResult :=
  let sep := "/" ++ cfg.organization ++ "/"
  let repo_path :=
    match repo.clone_url.splitOn sep with
    | _ :: p1 :: _ => sep ++ p1
    | _ => "/" ++ cfg.organization ++ "/" ++ project ++ "/_git/" ++ repo.name
  let pat_clone_url := "https://:" ++ cfg.pat_token ++ "@dev.azure.com" ++ repo_path
  let temp_clone_path := pdir ++ "/" ++ repo.name ++ ".git"
  let zfp := pdir ++ "/" ++ zip_file_name cfg project repo.name
  let steps := backup_repo_steps cfg env project repo pat_clone_url temp_clone_path zfp
  { entry := scheduledEntry cfg project repo.name pdir
    events := Event.logInfo ("Repo: " ++ repo.name) :: steps.1
    escaped := steps.2 }

/- ------------------------------------------------------------------ -/
/- The orchestrator loops (run_backup, lines 195-233).                 -/
/- ------------------------------------------------------------------ -/

/-- Result of a loop segment inside `run_backup`'s `try` block: the
manifest entries appended, the events performed, and `some msg` when an
exception escaped the segment. -/
structure StepResult where
  entries : List BackupEntry
  events : List Event
  escaped : Option String
deriving Repr

/-- The inner repository loop (lines 217-219): call `backup_repo` for each
repository in order; an escaping exception aborts the remaining
repositories, but the entry of the failing repository was already
appended. -/
def processRepos (cfg : Config) (env : Env) (project : String) (pdir : String) :
    List Repo → StepResult
  | [] => { entries := [], events := [], escaped := none }
  | r :: rs =>
      let rr := backup_repo cfg env project r pdir
      let hd := Event.logInfo ("Backing up: " ++ project ++ "/" ++ r.name) :: rr.events
      match rr.escaped with
      | some e => { entries := [rr.entry], events := hd, escaped := some e }
      | none =>
          let rest := processRepos cfg env project pdir rs
          { entries := rr.entry :: rest.entries
            events := hd ++ rest.events
            escaped := rest.escaped }

/-- The outer project loop (lines 207-219): for each project create its
directory, list its repositories (a project with no repositories is
skipped with a warning), run the repository loop, and continue with the
next project unless an exception escaped. -/
def processProjects (cfg : Config) (env : Env) : List String → StepResult
  | [] => { entries := [], events := [], escaped := none }
  | p :: ps =>
      let pdir := project_dir cfg p
      let pre := [Event.mkdir pdir, Event.logInfo ("Created folder: " ++ pdir)]
      let fetched := get_repos_by_project cfg env p
      let branch :=
        if fetched.1.isEmpty then
          { entries := [], events := [Event.logWarning ("No repos found in " ++ p)],
            escaped := none }
        else processRepos cfg env p pdir fetched.1
      match branch.escaped with
      | some e =>
          { entries := branch.entries
            events := pre ++ fetched.2 ++ branch.events
            escaped := some e }
      | none =>
          let rest := processProjects cfg env ps
          { entries := branch.entries ++ rest.entries
            events := pre ++ fetched.2 ++ branch.events ++ rest.events
            escaped := rest.escaped }

/-- The file-writing effect of `write_manifest` (lines 236-247): one write
of the whole manifest to the deterministically named file, then a log. -/
def write_manifest (cfg : Config) : List Event :=
  [Event.manifestWrite (manifest_file_path cfg),
   Event.logInfo ("Backup manifest written: " ++ manifest_file_path cfg)]

/-- `delete_local_backup_folder` (lines 249-267): skipped with a log in
dry-run mode or when `--keep-local` is set, otherwise `rm -rf` of the
backup root (an `rm` failure would be caught and logged). -/
def delete_local_backup_folder (cfg : Config) : List Event :=
  if cfg.dry_run then
    [.logInfo "Dry run, skipping deletion of local backup folder"]
  else if cfg.keep_local then
    [.logInfo "keep-local enabled, local backup folder will be retained"]
  else
    [.logInfo ("Deleting local backup folder: " ++ backup_root cfg),
     .rmBackupRoot (backup_root cfg),
     .logInfo "Local backup folder deleted"]

/-- `send_email_notification` (lines 269-333): composes the message,
attaches the manifest exactly when `os.path.exists` finds the manifest
file (`manifestOnDisk`), and attempts SMTP delivery; a delivery failure is
caught and logged.  The `emailSend` event records the invocation with the
outcome flag in the subject and whether the manifest was attached. -/
def send_email_notification (cfg : Config) (env : Env) (success : Bool)
    (manifestOnDisk : Bool) : List Event :=
  [.logInfo "Preparing to send backup status email"] ++
  (if manifestOnDisk then [Event.logInfo "Manifest attached to email"] else []) ++
  [Event.emailSend success manifestOnDisk] ++
  (if env.smtpOk then [Event.logInfo "Email sent"]
   else [Event.logError "Failed to send email"])

/-- Result of the `try` block of `run_backup` (lines 199-226), before the
`finally` block runs: the success flag and error message as set by the
body, the manifest list, the events so far, and whether the manifest file
now exists on disk. -/
structure TryResult where
  success : Bool
  error_message : String
  entries : List BackupEntry
  events : List Event
  manifestOnDisk : Bool
deriving Repr

/-- The `try` block of `run_backup` (lines 199-226).  `success` starts
`True`; an empty project list sets it `False` with message
`"No projects found."` and returns early, skipping the manifest write; an
exception escaping the loops or the manifest write is caught by the
top-level `except`, which sets `success = False` and records the message.
Only the path that completes `write_manifest` leaves the manifest file on
disk. -/
def run_backup_try (cfg : Config) (env : Env) : TryResult :=
  let pe := get_projects cfg env
  if pe.1.isEmpty then
    { success := false, error_message := "No projects found."
      entries := [], events := pe.2 ++ [Event.logWarning "No projects to back up"]
      manifestOnDisk := false }
  else
    let pr := processProjects cfg env pe.1
    match pr.escaped with
    | some e =>
        { success := false, error_message := e, entries := pr.entries
          events := pe.2 ++ pr.events ++ [Event.logError "Exception occurred during backup"]
          manifestOnDisk := false }
    | none =>
        if env.writeManifestOk then
          { success := true, error_message := "", entries := pr.entries
            events := pe.2 ++ pr.events ++ write_manifest cfg
            manifestOnDisk := true }
        else
          { success := false, error_message := "manifest write failed"
            entries := pr.entries
            events := pe.2 ++ pr.events ++ [Event.logError "Exception occurred during backup"]
            manifestOnDisk := false }

/-- The observable outcome of one whole `run_backup` call. -/
structure RunResult where
  success : Bool
  error_message : String
  manifest : List BackupEntry
  events : List Event
deriving Repr

/-- `run_backup` (lines 195-233): the `try` block, then the `finally`
block, which always sends the email notification and, only when `success`
is still `True`, calls `delete_local_backup_folder`. -/
def run_backup (cfg : Config) (env : Env) : RunResult :=
  let t := run_backup_try cfg env
  let emailEvents := send_email_notification cfg env t.success t.manifestOnDisk
  let cleanupEvents := if t.success then delete_local_backup_folder cfg else []
  { success := t.success
    error_message := t.error_message
    manifest := t.entries
    events := t.events ++ emailEvents ++ cleanupEvents }

/-- Result of the whole process: the exit code of the Python interpreter
and, when a run was performed, its outcome. -/
structure MainResult where
  exit_code : Nat
  run : Option RunResult
deriving Repr

/-- `main` (lines 337-377).  When the `AZURE_DEVOPS_PAT` environment
variable is unset (`none`) or empty (`""` is falsy in Python), `main`
prints an error and returns; CPython then exits with code 0, because no
`sys.exit` call exists anywhere in the program.  Otherwise the run is
performed and `main` returns normally, again exiting with code 0. -/
def main (cfg : Config) (pat_token : Option String) (env : Env) : MainResult :=
  match pat_token with
  | none => { exit_code := 0, run := none }
  | some t =>
      if t = "" then { exit_code := 0, run := none }
      else { exit_code := 0, run := some (run_backup { cfg with pat_token := t } env) }

/- ------------------------------------------------------------------ -/
/- Event classification.                                               -/
/- ------------------------------------------------------------------ -/

/-- Is this event the notifier invocation? -/
def Event.isEmailSend : Event → Bool
  | .emailSend _ _ => true
  | _ => false

/-- Is this event the manifest file write? -/
def Event.isManifestWrite : Event → Bool
  | .manifestWrite _ => true
  | _ => false

/-- Is this event the deletion of the local backup root? -/
def Event.isRmBackupRoot : Event → Bool
  | .rmBackupRoot _ => true
  | _ => false

/-- Is this event an upload to a configured destination? -/
def Event.isUpload : Event → Bool
  | .azureUpload _ _ => true
  | .awsUpload _ _ => true
  | _ => false

/-- Is this event a file creation, upload or deletion performed by the
clone, compress, upload or delete steps?  (Directory creation and the
manifest write are orchestrator-level actions, not part of those steps.) -/
def Event.isIrreversibleStep : Event → Bool
  | .gitClone _ _ => true
  | .zipArchive _ _ => true
  | .azureUpload _ _ => true
  | .awsUpload _ _ => true
  | .rmTemp _ => true
  | .rmBackupRoot _ => true
  | _ => false

/-- Is this event one of the three run-level actions (notification,
manifest write, backup-root deletion)?  Repository-level code never
performs any of them. -/
def Event.isRunLevel : Event → Bool
  | .emailSend _ _ => true
  | .manifestWrite _ => true
  | .rmBackupRoot _ => true
  | _ => false

/-- `p` happens strictly before `q` in the trace `l`: any index satisfying
`p` is smaller than any index satisfying `q`. -/
def EventsBefore (p q : Event → Bool) (l : List Event) : Prop :=
  ∀ i j (hi : i < l.length) (hj : j < l.length),
    p (l.get ⟨i, hi⟩) = true → q (l.get ⟨j, hj⟩) = true → i < j

/-- Is this event a pure log message? -/
def Event.isLog : Event → Bool
  | .logInfo _ => true
  | .logWarning _ => true
  | .logError _ => true
  | _ => false

/-- The manifest shape demanded by the data-model invariant: one entry per
repository of each non-excluded project, in discovery order (projects in
enumeration order, repositories in per-project listing order), built with
the same path-construction logic as `backup_repo`. -/
def discoveryOrderManifest (cfg : Config) (env : Env) (projects : List String) :
    List BackupEntry :=
  projects.flatMap (fun p => ((get_repos_by_project cfg env p).1).map
    (fun r => scheduledEntry cfg p r.name (project_dir cfg p)))

/- ------------------------------------------------------------------ -/
/- Concrete example inputs.                                            -/
/- ------------------------------------------------------------------ -/

/-- A concrete configuration: organization Contoso, project B excluded,
Azure upload enabled, real (non-simulated) run. -/
def cfgW : Config :=
  { organization := "Contoso", pat_token := "secret", excluded_projects := ["B"]
    azure_backup := true, aws_backup := false, dry_run := false, keep_local := false
    timestamp := "20260101-0000", cwd := "/work" }

/-- The same configuration in simulation mode. -/
def cfgW8 : Config :=
  { cfgW with dry_run := true }

def repoR1 : Repo :=
  { name := "r1", clone_url := "https://dev.azure.com/Contoso/A/_git/r1" }

def repoR2 : Repo :=
  { name := "r2", clone_url := "https://dev.azure.com/Contoso/A/_git/r2" }

/-- A concrete world: projects A and B exist, project A holds r1 and r2,
the clone of r2 fails with a `CalledProcessError`, everything else
succeeds. -/
def envW : Env :=
  { projectsFetch := .ok ["A", "B"]
    reposFetch := fun p => if p = "A" then .ok [repoR1, repoR2] else .ok []
    cloneOutcome := fun _ r => if r = "r2" then .fail else .ok
    zipOutcome := fun _ _ => .ok
    tempExists := fun _ _ => true
    azureUploadOk := fun _ => true
    awsUploadOk := fun _ => true
    writeManifestOk := true
    smtpOk := true }

/-- The same world except that the project enumeration returns no
projects at all. -/
def envC3 : Env :=
  { envW with projectsFetch := .ok [] }

/-- The same world except that both catalog calls fail with a transport
error. -/
def envERR : Env :=
  { envW with
    projectsFetch := .error "connection refused"
    reposFetch := fun _ => .error "connection refused" }

/- ------------------------------------------------------------------ -/
/- Helper lemmas.                                                      -/
/- ------------------------------------------------------------------ -/

lemma eventsBefore_append (p q : Event → Bool) (l1 l2 : List Event)
    (h1 : ∀ e ∈ l1, q e = false) (h2 : ∀ e ∈ l2, p e = false) :
    EventsBefore p q (l1 ++ l2) := by
  intro i j hi hj hpi hqj
  rcases Nat.lt_or_ge i l1.length with hil | hil
  · rcases Nat.lt_or_ge j l1.length with hjl | hjl
    · exfalso
      have hmem : (l1 ++ l2).get ⟨j, hj⟩ ∈ l1 := by
        rw [List.get_eq_getElem, List.getElem_append_left hjl]
        exact List.getElem_mem hjl
      have := h1 _ hmem
      rw [this] at hqj
      exact Bool.false_ne_true hqj
    · exact Nat.lt_of_lt_of_le hil hjl
  · exfalso
    have hlen : i - l1.length < l2.length := by
      have := hi
      rw [List.length_append] at this
      omega
    have hmem : (l1 ++ l2).get ⟨i, hi⟩ ∈ l2 := by
      rw [List.get_eq_getElem, List.getElem_append_right hil]
      exact List.getElem_mem hlen
    have := h2 _ hmem
    rw [this] at hpi
    exact Bool.false_ne_true hpi

lemma isRunLevel_false_elim {e : Event} (h : e.isRunLevel = false) :
    e.isEmailSend = false ∧ e.isManifestWrite = false ∧ e.isRmBackupRoot = false := by
  cases e <;> simp_all [Event.isRunLevel, Event.isEmailSend, Event.isManifestWrite,
    Event.isRmBackupRoot]

/-- All events of the upload dispatch are repository-level. -/
lemma upload_backup_runLevel (cfg : Config) (env : Env) (z : String) :
    ∀ e ∈ upload_backup cfg env z, e.isRunLevel = false := by
  intro e he
  unfold upload_backup at he
  split at he
  · simp at he; subst he; rfl
  · split at he
    · simp at he; subst he; rfl
    · simp only [List.mem_append, List.mem_singleton] at he
      rcases he with (he | he) | he
      · subst he; rfl
      · split at he <;> simp at he
        · rcases he with he | he
          · subst he; rfl
          · split at he <;> simp at he <;> subst he <;> rfl
      · split at he <;> simp at he
        · rcases he with he | he
          · subst he; rfl
          · split at he <;> simp at he <;> subst he <;> rfl

/-- All events of the clone/zip/upload steps are repository-level. -/
lemma backup_repo_steps_runLevel (cfg : Config) (env : Env) (project : String)
    (repo : Repo) (u t z : String) :
    ∀ e ∈ (backup_repo_steps cfg env project repo u t z).1, e.isRunLevel = false := by
  intro e he
  cases hdry : cfg.dry_run with
  | true =>
      simp only [backup_repo_steps, hdry, if_true, List.mem_singleton] at he
      subst he; rfl
  | false =>
      cases hte : env.tempExists project repo.name <;>
      cases hco : env.cloneOutcome project repo.name <;>
      cases hzo : env.zipOutcome project repo.name <;>
      · simp only [backup_repo_steps, hdry, hte, hco, hzo, Bool.false_eq_true,
          if_false, if_true, List.append_nil, List.mem_append, List.mem_cons,
          List.mem_singleton, List.not_mem_nil, or_false, false_or] at he
        repeat'
          first
          | exact upload_backup_runLevel cfg env _ _ he
          | (subst he; rfl)
          | rcases he with he | he

/-- All events of one `backup_repo` call are repository-level: it never
sends the notification, writes the manifest or deletes the backup root. -/
lemma backup_repo_runLevel (cfg : Config) (env : Env) (project : String)
    (repo : Repo) (pdir : String) :
    ∀ e ∈ (backup_repo cfg env project repo pdir).events, e.isRunLevel = false := by
  intro e he
  simp only [backup_repo, List.mem_cons] at he
  rcases he with rfl | he
  · rfl
  · exact backup_repo_steps_runLevel cfg env project repo _ _ _ e he

lemma isLog_elim {e : Event} (h : e.isLog = true) :
    e.isRunLevel = false ∧ e.isIrreversibleStep = false ∧ e.isEmailSend = false ∧
    e.isManifestWrite = false ∧ e.isRmBackupRoot = false ∧ e.isUpload = false := by
  cases e <;> simp_all [Event.isLog, Event.isRunLevel, Event.isIrreversibleStep,
    Event.isEmailSend, Event.isManifestWrite, Event.isRmBackupRoot, Event.isUpload]

/-- The catalog call `get_projects` only logs. -/
lemma get_projects_isLog (cfg : Config) (env : Env) :
    ∀ e ∈ (get_projects cfg env).2, e.isLog = true := by
  intro e he
  cases h : env.projectsFetch <;>
    simp only [get_projects, h, List.mem_cons, List.not_mem_nil, or_false] at he <;>
    rcases he with rfl | rfl <;> rfl

/-- The catalog call `get_repos_by_project` only logs. -/
lemma get_repos_isLog (cfg : Config) (env : Env) (project : String) :
    ∀ e ∈ (get_repos_by_project cfg env project).2, e.isLog = true := by
  intro e he
  cases h : env.reposFetch project <;>
    simp only [get_repos_by_project, h, List.mem_cons, List.not_mem_nil, or_false] at he
  · rcases he with rfl | rfl <;> rfl
  · subst he; rfl

/-- The repository loop only performs repository-level events. -/
lemma processRepos_runLevel (cfg : Config) (env : Env) (project pdir : String)
    (rs : List Repo) :
    ∀ e ∈ (processRepos cfg env project pdir rs).events, e.isRunLevel = false := by
  induction rs with
  | nil => intro e he; simp [processRepos] at he
  | cons r rs ih =>
      intro e he
      cases hesc : (backup_repo cfg env project r pdir).escaped with
      | some msg =>
          simp only [processRepos, hesc, List.mem_cons] at he
          rcases he with rfl | he
          · rfl
          · exact backup_repo_runLevel cfg env project r pdir e he
      | none =>
          simp only [processRepos, hesc, List.cons_append, List.mem_cons,
            List.mem_append] at he
          rcases he with rfl | he | he
          · rfl
          · exact backup_repo_runLevel cfg env project r pdir e he
          · exact ih e he

/-- The project loop only performs repository-level events. -/
lemma processProjects_runLevel (cfg : Config) (env : Env) (ps : List String) :
    ∀ e ∈ (processProjects cfg env ps).events, e.isRunLevel = false := by
  induction ps with
  | nil => intro e he; simp [processProjects] at he
  | cons p ps ih =>
      intro e he
      have hbranch : ∀ e2 ∈ (if (get_repos_by_project cfg env p).1.isEmpty then
          ({ entries := [], events := [Event.logWarning ("No repos found in " ++ p)],
             escaped := none } : StepResult)
          else processRepos cfg env p (project_dir cfg p) (get_repos_by_project cfg env p).1).events,
          e2.isRunLevel = false := by
        intro e2 he2
        split at he2
        · simp only [List.mem_singleton] at he2; subst he2; rfl
        · exact processRepos_runLevel cfg env p (project_dir cfg p) _ e2 he2
      rcases hesc : (if (get_repos_by_project cfg env p).1.isEmpty then
          ({ entries := [], events := [Event.logWarning ("No repos found in " ++ p)],
             escaped := none } : StepResult)
          else processRepos cfg env p (project_dir cfg p) (get_repos_by_project cfg env p).1).escaped
        with _ | msg
      · simp only [processProjects, hesc, List.mem_append, List.mem_cons,
          List.not_mem_nil, or_false] at he
        repeat'
          first
          | exact (isLog_elim (get_repos_isLog cfg env p e he)).1
          | exact hbranch e he
          | exact ih e he
          | (subst he; rfl)
          | rcases he with he | he
      · simp only [processProjects, hesc, List.mem_append, List.mem_cons,
          List.not_mem_nil, or_false] at he
        repeat'
          first
          | exact (isLog_elim (get_repos_isLog cfg env p e he)).1
          | exact hbranch e he
          | (subst he; rfl)
          | rcases he with he | he

/-- The manifest entry recorded by `backup_repo` is exactly the scheduled
entry built by the path-construction logic, for every outcome. -/
lemma backup_repo_entry (cfg : Config) (env : Env) (project : String) (repo : Repo)
    (pdir : String) :
    (backup_repo cfg env project repo pdir).entry = scheduledEntry cfg project repo.name pdir := rfl

/-- The clone/zip steps let no exception escape unless an oracle answers
`escape`. -/
lemma backup_repo_steps_escaped (cfg : Config) (env : Env) (project : String)
    (repo : Repo) (u t z : String)
    (hc : env.cloneOutcome project repo.name ≠ StepOutcome.escape)
    (hz : env.zipOutcome project repo.name ≠ StepOutcome.escape) :
    (backup_repo_steps cfg env project repo u t z).2 = none := by
  cases hdry : cfg.dry_run with
  | true => simp [backup_repo_steps, hdry]
  | false =>
      cases hco : env.cloneOutcome project repo.name with
      | escape => exact absurd hco hc
      | fail => simp [backup_repo_steps, hdry, hco]
      | ok =>
          cases hzo : env.zipOutcome project repo.name with
          | escape => exact absurd hzo hz
          | fail => simp [backup_repo_steps, hdry, hco, hzo]
          | ok => simp [backup_repo_steps, hdry, hco, hzo]

lemma backup_repo_escaped_none (cfg : Config) (env : Env) (project : String)
    (repo : Repo) (pdir : String)
    (hc : env.cloneOutcome project repo.name ≠ StepOutcome.escape)
    (hz : env.zipOutcome project repo.name ≠ StepOutcome.escape) :
    (backup_repo cfg env project repo pdir).escaped = none :=
  backup_repo_steps_escaped cfg env project repo _ _ _ hc hz

/-- In dry-run mode `backup_repo` returns before the `try` block: nothing
can escape. -/
lemma backup_repo_escaped_dry (cfg : Config) (env : Env) (project : String)
    (repo : Repo) (pdir : String) (hd : cfg.dry_run = true) :
    (backup_repo cfg env project repo pdir).escaped = none := by
  show (backup_repo_steps cfg env project repo _ _ _).2 = none
  simp [backup_repo_steps, hd]

/-- If no repository lets an exception escape, the repository loop visits
every repository and collects exactly one scheduled entry per repository,
in listing order. -/
lemma processRepos_spec (cfg : Config) (env : Env) (project pdir : String)
    (rs : List Repo)
    (h : ∀ r ∈ rs, (backup_repo cfg env project r pdir).escaped = none) :
    (processRepos cfg env project pdir rs).entries
        = rs.map (fun r => scheduledEntry cfg project r.name pdir) ∧
    (processRepos cfg env project pdir rs).escaped = none := by
  induction rs with
  | nil => exact ⟨rfl, rfl⟩
  | cons r rs ih =>
      have hr : (backup_repo cfg env project r pdir).escaped = none :=
        h r (List.mem_cons_self r rs)
      have hrest := ih (fun x hx => h x (List.mem_cons_of_mem r hx))
      refine ⟨?_, ?_⟩
      · simp only [processRepos, hr, List.map_cons]
        rw [hrest.1, backup_repo_entry]
      · simp only [processRepos, hr]
        exact hrest.2

/-- If no repository lets an exception escape, the project loop visits
every project and produces the discovery-order manifest. -/
lemma processProjects_spec (cfg : Config) (env : Env) (ps : List String)
    (h : ∀ p r, (backup_repo cfg env p r (project_dir cfg p)).escaped = none) :
    (processProjects cfg env ps).entries = discoveryOrderManifest cfg env ps ∧
    (processProjects cfg env ps).escaped = none := by
  induction ps with
  | nil => exact ⟨rfl, rfl⟩
  | cons p ps ih =>
      cases hemp : (get_repos_by_project cfg env p).1.isEmpty with
      | true =>
          have hnil : (get_repos_by_project cfg env p).1 = [] :=
            List.isEmpty_iff.mp hemp
          refine ⟨?_, ?_⟩ <;>
            simp only [processProjects, hemp, if_true]
          · rw [ih.1]
            simp [discoveryOrderManifest, List.flatMap_cons, hnil]
          · exact ih.2
      | false =>
          have hspec := processRepos_spec cfg env p (project_dir cfg p)
            (get_repos_by_project cfg env p).1 (fun r _ => h p r)
          refine ⟨?_, ?_⟩ <;>
            simp only [processProjects, hemp, Bool.false_eq_true, if_false, hspec.2]
          · rw [hspec.1, ih.1]
            simp [discoveryOrderManifest, List.flatMap_cons]
          · exact ih.2

/- ------------------------------------------------------------------ -/
/- The four terminal shapes of the try block.                          -/
/- ------------------------------------------------------------------ -/

lemma run_backup_try_empty (cfg : Config) (env : Env)
    (hp : (get_projects cfg env).1 = []) :
    run_backup_try cfg env =
      { success := false, error_message := "No projects found.", entries := []
        events := (get_projects cfg env).2 ++ [Event.logWarning "No projects to back up"]
        manifestOnDisk := false } := by
  simp [run_backup_try, hp]

lemma run_backup_try_escape (cfg : Config) (env : Env) (msg : String)
    (hp : (get_projects cfg env).1 ≠ [])
    (hesc : (processProjects cfg env (get_projects cfg env).1).escaped = some msg) :
    run_backup_try cfg env =
      { success := false, error_message := msg
        entries := (processProjects cfg env (get_projects cfg env).1).entries
        events := (get_projects cfg env).2
          ++ (processProjects cfg env (get_projects cfg env).1).events
          ++ [Event.logError "Exception occurred during backup"]
        manifestOnDisk := false } := by
  have hne : (get_projects cfg env).1.isEmpty = false := by
    cases hl : (get_projects cfg env).1
    · exact absurd hl hp
    · rfl
  simp [run_backup_try, hne, hesc]

lemma run_backup_try_complete (cfg : Config) (env : Env)
    (hp : (get_projects cfg env).1 ≠ [])
    (hesc : (processProjects cfg env (get_projects cfg env).1).escaped = none)
    (hw : env.writeManifestOk = true) :
    run_backup_try cfg env =
      { success := true, error_message := ""
        entries := (processProjects cfg env (get_projects cfg env).1).entries
        events := (get_projects cfg env).2
          ++ (processProjects cfg env (get_projects cfg env).1).events
          ++ write_manifest cfg
        manifestOnDisk := true } := by
  have hne : (get_projects cfg env).1.isEmpty = false := by
    cases hl : (get_projects cfg env).1
    · exact absurd hl hp
    · rfl
  simp [run_backup_try, hne, hesc, hw]

lemma run_backup_try_writefail (cfg : Config) (env : Env)
    (hp : (get_projects cfg env).1 ≠ [])
    (hesc : (processProjects cfg env (get_projects cfg env).1).escaped = none)
    (hw : env.writeManifestOk = false) :
    run_backup_try cfg env =
      { success := false, error_message := "manifest write failed"
        entries := (processProjects cfg env (get_projects cfg env).1).entries
        events := (get_projects cfg env).2
          ++ (processProjects cfg env (get_projects cfg env).1).events
          ++ [Event.logError "Exception occurred during backup"]
        manifestOnDisk := false } := by
  have hne : (get_projects cfg env).1.isEmpty = false := by
    cases hl : (get_projects cfg env).1
    · exact absurd hl hp
    · rfl
  simp [run_backup_try, hne, hesc, hw]

/- ------------------------------------------------------------------ -/
/- Notifier and cleanup shapes.                                        -/
/- ------------------------------------------------------------------ -/

/-- The notifier is invoked with exactly the flags it was given. -/
lemma send_email_mem (cfg : Config) (env : Env) (s d : Bool) :
    Event.emailSend s d ∈ send_email_notification cfg env s d := by
  cases d <;> cases henv : env.smtpOk <;> simp [send_email_notification, henv]

/-- The only `emailSend` event the notifier produces carries its own
arguments. -/
lemma send_email_emailSend_inv (cfg : Config) (env : Env) (s d s2 a2 : Bool)
    (h : Event.emailSend s2 a2 ∈ send_email_notification cfg env s d) :
    s2 = s ∧ a2 = d := by
  cases d <;> cases henv : env.smtpOk <;>
    simp_all [send_email_notification, henv]

lemma send_email_filter (cfg : Config) (env : Env) (s d : Bool) :
    (send_email_notification cfg env s d).filter Event.isEmailSend
      = [Event.emailSend s d] := by
  cases d <;> cases henv : env.smtpOk <;>
    simp [send_email_notification, henv, Event.isEmailSend, List.filter]

lemma send_email_no_mw_rm_irrev (cfg : Config) (env : Env) (s d : Bool) :
    ∀ e ∈ send_email_notification cfg env s d,
      e.isManifestWrite = false ∧ e.isRmBackupRoot = false ∧
      e.isIrreversibleStep = false := by
  intro e he
  cases d <;> cases henv : env.smtpOk <;>
    simp only [send_email_notification, henv, List.mem_append, List.mem_cons,
      List.mem_singleton, List.not_mem_nil, or_false, false_or, if_true, if_false,
      Bool.false_eq_true] at he <;>
    (repeat'
      first
      | (subst he; exact ⟨rfl, rfl, rfl⟩)
      | rcases he with he | he)

lemma delete_local_any_rm (cfg : Config) :
    (delete_local_backup_folder cfg).any Event.isRmBackupRoot
      = (!cfg.dry_run && !cfg.keep_local) := by
  cases hd : cfg.dry_run <;> cases hk : cfg.keep_local <;>
    simp [delete_local_backup_folder, hd, hk, Event.isRmBackupRoot]

lemma delete_local_no_mw_email (cfg : Config) :
    ∀ e ∈ delete_local_backup_folder cfg,
      e.isManifestWrite = false ∧ e.isEmailSend = false := by
  intro e he
  cases hd : cfg.dry_run <;> cases hk : cfg.keep_local <;>
    simp only [delete_local_backup_folder, hd, hk, if_true, if_false,
      Bool.false_eq_true, List.mem_cons, List.mem_singleton, List.not_mem_nil,
      or_false] at he <;>
    (repeat'
      first
      | (subst he; exact ⟨rfl, rfl⟩)
      | rcases he with he | he)

lemma write_manifest_no_email_rm (cfg : Config) :
    ∀ e ∈ write_manifest cfg,
      e.isEmailSend = false ∧ e.isRmBackupRoot = false ∧
      e.isIrreversibleStep = false := by
  intro e he
  simp only [write_manifest, List.mem_cons, List.mem_singleton,
    List.not_mem_nil, or_false] at he
  rcases he with rfl | rfl
  · exact ⟨rfl, rfl, rfl⟩
  · exact ⟨rfl, rfl, rfl⟩

lemma write_manifest_any_mw (cfg : Config) :
    (write_manifest cfg).any Event.isManifestWrite = true := by
  simp [write_manifest, Event.isManifestWrite]

/-- `any` is false on a list all of whose members refute the predicate. -/
lemma any_eq_false_of_forall {l : List Event} {p : Event → Bool}
    (h : ∀ e ∈ l, p e = false) : l.any p = false := by
  rw [List.any_eq_false]
  intro x hx
  simp [h x hx]

/-- `filter` is empty on a list all of whose members refute the predicate. -/
lemma filter_eq_nil_of_forall {l : List Event} {p : Event → Bool}
    (h : ∀ e ∈ l, p e = false) : l.filter p = [] := by
  rw [List.filter_eq_nil_iff]
  intro x hx
  simp [h x hx]

/- ------------------------------------------------------------------ -/
/- Run-level composition.                                              -/
/- ------------------------------------------------------------------ -/

lemma run_backup_success (cfg : Config) (env : Env) :
    (run_backup cfg env).success = (run_backup_try cfg env).success := rfl

lemma run_backup_manifest (cfg : Config) (env : Env) :
    (run_backup cfg env).manifest = (run_backup_try cfg env).entries := rfl

lemma run_backup_events (cfg : Config) (env : Env) :
    (run_backup cfg env).events
      = (run_backup_try cfg env).events
        ++ send_email_notification cfg env (run_backup_try cfg env).success
             (run_backup_try cfg env).manifestOnDisk
        ++ (if (run_backup_try cfg env).success then delete_local_backup_folder cfg
            else []) := rfl

/-- The try block itself neither sends the notification nor deletes the
backup root: the `finally` block does both. -/
lemma run_backup_try_no_email_rm (cfg : Config) (env : Env) :
    ∀ e ∈ (run_backup_try cfg env).events,
      e.isEmailSend = false ∧ e.isRmBackupRoot = false := by
  intro e he
  have hpe : ∀ e2 ∈ (get_projects cfg env).2,
      e2.isEmailSend = false ∧ e2.isRmBackupRoot = false := by
    intro e2 he2
    have h := isLog_elim (get_projects_isLog cfg env e2 he2)
    exact ⟨h.2.2.1, h.2.2.2.2.1⟩
  have hpp : ∀ e2 ∈ (processProjects cfg env (get_projects cfg env).1).events,
      e2.isEmailSend = false ∧ e2.isRmBackupRoot = false := by
    intro e2 he2
    have h := isRunLevel_false_elim
      (processProjects_runLevel cfg env (get_projects cfg env).1 e2 he2)
    exact ⟨h.1, h.2.2⟩
  by_cases hp : (get_projects cfg env).1 = []
  · rw [run_backup_try_empty cfg env hp] at he
    simp only [List.mem_append, List.mem_singleton] at he
    rcases he with he | rfl
    · exact hpe e he
    · exact ⟨rfl, rfl⟩
  · rcases hesc : (processProjects cfg env (get_projects cfg env).1).escaped with _ | msg
    · cases hw : env.writeManifestOk with
      | false =>
          rw [run_backup_try_writefail cfg env hp hesc hw] at he
          simp only [List.mem_append, List.mem_singleton] at he
          rcases he with (he | he) | rfl
          · exact hpe e he
          · exact hpp e he
          · exact ⟨rfl, rfl⟩
      | true =>
          rw [run_backup_try_complete cfg env hp hesc hw] at he
          simp only [List.mem_append] at he
          rcases he with (he | he) | he
          · exact hpe e he
          · exact hpp e he
          · have h := write_manifest_no_email_rm cfg e he
            exact ⟨h.1, h.2.1⟩
    · rw [run_backup_try_escape cfg env msg hp hesc] at he
      simp only [List.mem_append, List.mem_singleton] at he
      rcases he with (he | he) | rfl
      · exact hpe e he
      · exact hpp e he
      · exact ⟨rfl, rfl⟩

/-- The try block leaves a `manifestWrite` event in its trace exactly when
it reports the manifest file on disk. -/
lemma run_backup_try_any_mw (cfg : Config) (env : Env) :
    (run_backup_try cfg env).events.any Event.isManifestWrite
      = (run_backup_try cfg env).manifestOnDisk := by
  have hpe : ((get_projects cfg env).2).any Event.isManifestWrite = false :=
    any_eq_false_of_forall (fun e2 he2 =>
      (isLog_elim (get_projects_isLog cfg env e2 he2)).2.2.2.1)
  have hpp : ((processProjects cfg env (get_projects cfg env).1).events).any
      Event.isManifestWrite = false :=
    any_eq_false_of_forall (fun e2 he2 =>
      (isRunLevel_false_elim
        (processProjects_runLevel cfg env (get_projects cfg env).1 e2 he2)).2.1)
  by_cases hp : (get_projects cfg env).1 = []
  · rw [run_backup_try_empty cfg env hp]
    simp [List.any_append, hpe, Event.isManifestWrite]
  · rcases hesc : (processProjects cfg env (get_projects cfg env).1).escaped with _ | msg
    · cases hw : env.writeManifestOk with
      | false =>
          rw [run_backup_try_writefail cfg env hp hesc hw]
          simp [List.any_append, hpe, hpp, Event.isManifestWrite]
      | true =>
          rw [run_backup_try_complete cfg env hp hesc hw]
          simp [List.any_append, hpe, hpp, write_manifest_any_mw]
    · rw [run_backup_try_escape cfg env msg hp hesc]
      simp [List.any_append, hpe, hpp, Event.isManifestWrite]

/-- If no repository lets an exception escape, the run's manifest is the
discovery-order manifest, whatever the manifest-write outcome (the list is
in memory before the write). -/
lemma run_backup_manifest_discovery (cfg : Config) (env : Env)
    (hnone : ∀ p r, (backup_repo cfg env p r (project_dir cfg p)).escaped = none) :
    (run_backup cfg env).manifest
      = discoveryOrderManifest cfg env (get_projects cfg env).1 := by
  have hspec := processProjects_spec cfg env (get_projects cfg env).1 hnone
  rw [run_backup_manifest]
  by_cases hp : (get_projects cfg env).1 = []
  · rw [run_backup_try_empty cfg env hp, hp]
    rfl
  · cases hw : env.writeManifestOk with
    | true =>
        rw [run_backup_try_complete cfg env hp hspec.2 hw]
        exact hspec.1
    | false =>
        rw [run_backup_try_writefail cfg env hp hspec.2 hw]
        exact hspec.1

/-- A `manifestWrite` event occurs in the run exactly when the try block
reports the manifest file on disk. -/
lemma run_backup_any_mw (cfg : Config) (env : Env) :
    (run_backup cfg env).events.any Event.isManifestWrite
      = (run_backup_try cfg env).manifestOnDisk := by
  have hclean : (if (run_backup_try cfg env).success
      then delete_local_backup_folder cfg else []).any Event.isManifestWrite = false := by
    split
    · exact any_eq_false_of_forall (fun e he => (delete_local_no_mw_email cfg e he).1)
    · rfl
  have hemail : (send_email_notification cfg env (run_backup_try cfg env).success
      (run_backup_try cfg env).manifestOnDisk).any Event.isManifestWrite = false :=
    any_eq_false_of_forall (fun e he => (send_email_no_mw_rm_irrev cfg env _ _ e he).1)
  rw [run_backup_events]
  simp only [List.any_append, run_backup_try_any_mw, hemail, hclean, Bool.or_false]

/-- The whole run contains exactly one notifier invocation, carrying the
try block's outcome flags. -/
lemma run_backup_email_filter (cfg : Config) (env : Env) :
    (run_backup cfg env).events.filter Event.isEmailSend
      = [Event.emailSend (run_backup_try cfg env).success
           (run_backup_try cfg env).manifestOnDisk] := by
  rw [run_backup_events, List.filter_append, List.filter_append]
  rw [filter_eq_nil_of_forall (fun e he => (run_backup_try_no_email_rm cfg env e he).1)]
  rw [send_email_filter]
  have hclean : (if (run_backup_try cfg env).success
      then delete_local_backup_folder cfg else []).filter Event.isEmailSend = [] := by
    split
    · exact filter_eq_nil_of_forall (fun e he => (delete_local_no_mw_email cfg e he).2)
    · rfl
  rw [hclean]
  rfl

/-- Every `emailSend` event of a run carries the try block's outcome
flags. -/
lemma run_backup_emailSend_inv (cfg : Config) (env : Env) (s a : Bool)
    (h : Event.emailSend s a ∈ (run_backup cfg env).events) :
    s = (run_backup_try cfg env).success ∧
    a = (run_backup_try cfg env).manifestOnDisk := by
  rw [run_backup_events] at h
  simp only [List.mem_append] at h
  rcases h with (h | h) | h
  · have := (run_backup_try_no_email_rm cfg env _ h).1
    simp [Event.isEmailSend] at this
  · exact send_email_emailSend_inv cfg env _ _ s a h
  · split at h
    · have := (delete_local_no_mw_email cfg _ h).2
      simp [Event.isEmailSend] at this
    · simp at h

/-- C1: for every run, the outcome is successful if and only if project
enumeration (after exclusion) returned at least one project, no error
escaped per-repository isolation out of the project loop, and no error
reached the top level from the manifest write.  The right-hand side does
not mention the clone/zip `fail` outcomes at all: a clone or compress
failure of an individual repository (a caught `CalledProcessError`) never
by itself makes the run outcome failed. -/
theorem claim1_run_success_iff (cfg : Config) (env : Env) :
    (run_backup cfg env).success = true ↔
      ((get_projects cfg env).1 ≠ [] ∧
       (processProjects cfg env (get_projects cfg env).1).escaped = none ∧
       env.writeManifestOk = true) := by
  rw [run_backup_success]
  by_cases hp : (get_projects cfg env).1 = []
  · rw [run_backup_try_empty cfg env hp]
    simp [hp]
  · rcases hesc : (processProjects cfg env (get_projects cfg env).1).escaped with _ | msg
    · cases hw : env.writeManifestOk with
      | false =>
          rw [run_backup_try_writefail cfg env hp hesc hw]
          simp [hp, hw]
      | true =>
          rw [run_backup_try_complete cfg env hp hesc hw]
          simp [hp, hw]
    · rw [run_backup_try_escape cfg env msg hp hesc]
      simp [hp, hesc]

/-- C6: the notifier is invoked exactly once per run, unconditionally —
whatever the enumeration result, repository outcomes or escaped errors —
and the notification carries the manifest attachment exactly when the
manifest file exists on disk at send time (equivalently, when a
`manifestWrite` event occurred in this run, since deletion of the backup
root can only happen after the send). -/
theorem claim6_notifier_exactly_once (cfg : Config) (env : Env) :
    ((run_backup cfg env).events.filter Event.isEmailSend).length = 1 ∧
    (∀ s a, Event.emailSend s a ∈ (run_backup cfg env).events →
      (a = true ↔ (run_backup cfg env).events.any Event.isManifestWrite = true)) := by
  refine ⟨by rw [run_backup_email_filter]; rfl, ?_⟩
  intro s a hmem
  rw [(run_backup_emailSend_inv cfg env s a hmem).2, run_backup_any_mw]

/-- C7: the local backup root is deleted exactly when the run succeeded,
simulation mode is off, and the retention flag is not set; and the
deletion event can only occur strictly after the manifest write and after
the notification send. -/
theorem claim7_cleanup_iff_and_after (cfg : Config) (env : Env) :
    ((run_backup cfg env).events.any Event.isRmBackupRoot = true ↔
      ((run_backup cfg env).success = true ∧ cfg.dry_run = false ∧
       cfg.keep_local = false)) ∧
    EventsBefore Event.isManifestWrite Event.isRmBackupRoot (run_backup cfg env).events ∧
    EventsBefore Event.isEmailSend Event.isRmBackupRoot (run_backup cfg env).events := by
  have htry := run_backup_try_no_email_rm cfg env
  have hemail_rm : ∀ e ∈ (send_email_notification cfg env (run_backup_try cfg env).success
      (run_backup_try cfg env).manifestOnDisk), e.isRmBackupRoot = false :=
    fun e he => (send_email_no_mw_rm_irrev cfg env _ _ e he).2.1
  have hfront_rm : ∀ e ∈ (run_backup_try cfg env).events
      ++ send_email_notification cfg env (run_backup_try cfg env).success
           (run_backup_try cfg env).manifestOnDisk, e.isRmBackupRoot = false := by
    intro e he
    rcases List.mem_append.mp he with he | he
    · exact (htry e he).2
    · exact hemail_rm e he
  have hclean_mw_email : ∀ e ∈ (if (run_backup_try cfg env).success
      then delete_local_backup_folder cfg else []),
      e.isManifestWrite = false ∧ e.isEmailSend = false := by
    intro e he
    split at he
    · exact delete_local_no_mw_email cfg e he
    · simp at he
  refine ⟨?_, ?_, ?_⟩
  · rw [run_backup_events, run_backup_success]
    rw [List.any_append, List.any_append]
    rw [any_eq_false_of_forall (fun e he => (htry e he).2)]
    rw [any_eq_false_of_forall hemail_rm]
    cases hs : (run_backup_try cfg env).success <;>
      cases hd : cfg.dry_run <;> cases hk : cfg.keep_local <;>
      simp [delete_local_any_rm, hd, hk]
  · rw [run_backup_events]
    exact eventsBefore_append _ _ _ _ hfront_rm
      (fun e he => (hclean_mw_email e he).1)
  · rw [run_backup_events]
    exact eventsBefore_append _ _ _ _ hfront_rm
      (fun e he => (hclean_mw_email e he).2)

/-- C2: if no error escapes per-repository isolation, the run's manifest
contains exactly one entry per repository of each non-excluded project —
M entries when the repository counts of the N non-excluded projects sum
to M — in discovery order: projects in enumeration order, repositories in
per-project listing order, one entry per scheduled attempt whether it
succeeded or not. -/
theorem claim2_manifest_entries (cfg : Config) (env : Env)
    (h : ∀ p r, env.cloneOutcome p r ≠ StepOutcome.escape ∧
                env.zipOutcome p r ≠ StepOutcome.escape) :
    (run_backup cfg env).manifest
        = discoveryOrderManifest cfg env (get_projects cfg env).1 ∧
    (run_backup cfg env).manifest.length
        = (((get_projects cfg env).1).map
            (fun p => ((get_repos_by_project cfg env p).1).length)).sum := by
  have hnone : ∀ p r, (backup_repo cfg env p r (project_dir cfg p)).escaped = none :=
    fun p r => backup_repo_escaped_none cfg env p r _ (h p r.name).1 (h p r.name).2
  have hmani := run_backup_manifest_discovery cfg env hnone
  refine ⟨hmani, ?_⟩
  rw [hmani]
  simp only [discoveryOrderManifest, List.length_flatMap]
  congr 1
  apply List.map_congr_left
  intro p _
  simp [Function.comp, List.length_map]

theorem claim2_manifest_entries_witness :
    (∀ p r, envW.cloneOutcome p r ≠ StepOutcome.escape ∧
            envW.zipOutcome p r ≠ StepOutcome.escape) ∧
    (run_backup cfgW envW).manifest
        = discoveryOrderManifest cfgW envW (get_projects cfgW envW).1 := by
  have h : ∀ p r, envW.cloneOutcome p r ≠ StepOutcome.escape ∧
      envW.zipOutcome p r ≠ StepOutcome.escape := by
    intro p r
    constructor
    · show (if r = "r2" then StepOutcome.fail else StepOutcome.ok) ≠ StepOutcome.escape
      split <;> simp
    · show StepOutcome.ok ≠ StepOutcome.escape
      simp
  exact ⟨h, (claim2_manifest_entries cfgW envW h).1⟩

/-- A failing (but not escaping) clone or zip step leaves the
`Failed to backup` log in the step trace. -/
lemma backup_repo_steps_logError (cfg : Config) (env : Env) (project : String)
    (repo : Repo) (u t z : String)
    (hdry : cfg.dry_run = false)
    (hfail : env.cloneOutcome project repo.name = StepOutcome.fail ∨
             (env.cloneOutcome project repo.name = StepOutcome.ok ∧
              env.zipOutcome project repo.name = StepOutcome.fail)) :
    Event.logError ("Failed to backup " ++ project ++ "/" ++ repo.name)
      ∈ (backup_repo_steps cfg env project repo u t z).1 := by
  rcases hfail with hc | ⟨hc, hz⟩
  · simp [backup_repo_steps, hdry, hc]
  · simp [backup_repo_steps, hdry, hc, hz]

lemma backup_repo_events_logError (cfg : Config) (env : Env) (project : String)
    (repo : Repo) (pdir : String)
    (hdry : cfg.dry_run = false)
    (hfail : env.cloneOutcome project repo.name = StepOutcome.fail ∨
             (env.cloneOutcome project repo.name = StepOutcome.ok ∧
              env.zipOutcome project repo.name = StepOutcome.fail)) :
    Event.logError ("Failed to backup " ++ project ++ "/" ++ repo.name)
      ∈ (backup_repo cfg env project repo pdir).events := by
  simp only [backup_repo]
  exact List.mem_cons_of_mem _
    (backup_repo_steps_logError cfg env project repo _ _ _ hdry hfail)

/-- C4: a clone or compress failure of one repository is caught inside the
per-repository step (nothing escapes), is logged there, the repository
keeps its scheduled manifest entry, and the run's manifest still contains
one entry for every repository of every project — siblings and subsequent
projects are processed unaffected. -/
theorem claim4_repo_failure_isolated (cfg : Config) (env : Env)
    (p0 : String) (r0 : Repo)
    (hdry : cfg.dry_run = false)
    (hfail : env.cloneOutcome p0 r0.name = StepOutcome.fail ∨
             (env.cloneOutcome p0 r0.name = StepOutcome.ok ∧
              env.zipOutcome p0 r0.name = StepOutcome.fail))
    (hne : ∀ p r, env.cloneOutcome p r ≠ StepOutcome.escape ∧
                  env.zipOutcome p r ≠ StepOutcome.escape)
    (hp0 : p0 ∈ (get_projects cfg env).1)
    (hr0 : r0 ∈ (get_repos_by_project cfg env p0).1) :
    (backup_repo cfg env p0 r0 (project_dir cfg p0)).escaped = none ∧
    Event.logError ("Failed to backup " ++ p0 ++ "/" ++ r0.name)
      ∈ (backup_repo cfg env p0 r0 (project_dir cfg p0)).events ∧
    (backup_repo cfg env p0 r0 (project_dir cfg p0)).entry
      = scheduledEntry cfg p0 r0.name (project_dir cfg p0) ∧
    (run_backup cfg env).manifest
      = discoveryOrderManifest cfg env (get_projects cfg env).1 ∧
    scheduledEntry cfg p0 r0.name (project_dir cfg p0)
      ∈ (run_backup cfg env).manifest := by
  have hnone : ∀ p r, (backup_repo cfg env p r (project_dir cfg p)).escaped = none :=
    fun p r => backup_repo_escaped_none cfg env p r _ (hne p r.name).1 (hne p r.name).2
  have hmani := run_backup_manifest_discovery cfg env hnone
  refine ⟨hnone p0 r0, backup_repo_events_logError cfg env p0 r0 _ hdry hfail,
    rfl, hmani, ?_⟩
  rw [hmani]
  unfold discoveryOrderManifest
  exact List.mem_flatMap.mpr ⟨p0, hp0, List.mem_map_of_mem _ hr0⟩

theorem claim4_repo_failure_isolated_witness :
    cfgW.dry_run = false ∧
    envW.cloneOutcome "A" repoR2.name = StepOutcome.fail ∧
    Event.logError ("Failed to backup " ++ "A" ++ "/" ++ repoR2.name)
      ∈ (backup_repo cfgW envW "A" repoR2 (project_dir cfgW "A")).events ∧
    scheduledEntry cfgW "A" repoR2.name (project_dir cfgW "A")
      ∈ (run_backup cfgW envW).manifest := by
  have hne : ∀ p r, envW.cloneOutcome p r ≠ StepOutcome.escape ∧
      envW.zipOutcome p r ≠ StepOutcome.escape := by
    intro p r
    constructor
    · show (if r = "r2" then StepOutcome.fail else StepOutcome.ok) ≠ StepOutcome.escape
      split <;> simp
    · show StepOutcome.ok ≠ StepOutcome.escape
      simp
  have h := claim4_repo_failure_isolated cfgW envW "A" repoR2 rfl
    (Or.inl (by decide)) hne (by decide) (by decide)
  exact ⟨rfl, by decide, h.2.1, h.2.2.2.2⟩

/-- In dry-run mode `backup_repo` only logs. -/
lemma backup_repo_events_dry (cfg : Config) (env : Env) (project : String)
    (repo : Repo) (pdir : String) (hd : cfg.dry_run = true) :
    ∀ e ∈ (backup_repo cfg env project repo pdir).events, e.isLog = true := by
  intro e he
  simp only [backup_repo, backup_repo_steps, hd, if_true, List.mem_cons,
    List.mem_singleton, List.not_mem_nil, or_false] at he
  rcases he with rfl | rfl
  · rfl
  · rfl

/-- In dry-run mode the repository loop only logs. -/
lemma processRepos_dry_isLog (cfg : Config) (env : Env) (project pdir : String)
    (hd : cfg.dry_run = true) (rs : List Repo) :
    ∀ e ∈ (processRepos cfg env project pdir rs).events, e.isLog = true := by
  induction rs with
  | nil => intro e he; simp [processRepos] at he
  | cons r rs ih =>
      intro e he
      have hesc := backup_repo_escaped_dry cfg env project r pdir hd
      simp only [processRepos, hesc, List.cons_append, List.mem_cons,
        List.mem_append] at he
      rcases he with rfl | he | he
      · rfl
      · exact backup_repo_events_dry cfg env project r pdir hd e he
      · exact ih e he

/-- In dry-run mode the project loop performs no clone, compress, upload or
delete action (it only logs and creates directories). -/
lemma processProjects_dry_noIrrev (cfg : Config) (env : Env)
    (hd : cfg.dry_run = true) (ps : List String) :
    ∀ e ∈ (processProjects cfg env ps).events, e.isIrreversibleStep = false := by
  induction ps with
  | nil => intro e he; simp [processProjects] at he
  | cons p ps ih =>
      intro e he
      have hbranch : ∀ e2 ∈ (if (get_repos_by_project cfg env p).1.isEmpty then
          ({ entries := [], events := [Event.logWarning ("No repos found in " ++ p)],
             escaped := none } : StepResult)
          else processRepos cfg env p (project_dir cfg p)
                 (get_repos_by_project cfg env p).1).events,
          e2.isIrreversibleStep = false := by
        intro e2 he2
        split at he2
        · simp only [List.mem_singleton] at he2; subst he2; rfl
        · exact (isLog_elim
            (processRepos_dry_isLog cfg env p (project_dir cfg p) hd _ e2 he2)).2.1
      have hbesc : (if (get_repos_by_project cfg env p).1.isEmpty then
          ({ entries := [], events := [Event.logWarning ("No repos found in " ++ p)],
             escaped := none } : StepResult)
          else processRepos cfg env p (project_dir cfg p)
                 (get_repos_by_project cfg env p).1).escaped = none := by
        split
        · rfl
        · exact (processRepos_spec cfg env p (project_dir cfg p) _
            (fun r _ => backup_repo_escaped_dry cfg env p r _ hd)).2
      simp only [processProjects, hbesc, List.mem_append, List.mem_cons,
        List.not_mem_nil, or_false] at he
      repeat'
        first
        | exact (isLog_elim (get_repos_isLog cfg env p e he)).2.1
        | exact hbranch e he
        | exact ih e he
        | (subst he; rfl)
        | rcases he with he | he

/-- In dry-run mode the cleanup step only logs. -/
lemma delete_local_dry (cfg : Config) (hd : cfg.dry_run = true) :
    delete_local_backup_folder cfg
      = [Event.logInfo "Dry run, skipping deletion of local backup folder"] := by
  simp [delete_local_backup_folder, hd]

/-- C8: a dry run performs no clone, compress, upload or delete action —
no file is created, uploaded or deleted by those steps — yet yields the
same discovery-order manifest entries from the same path-construction
logic as a real run; the manifest itself is still written and attached to
the (successful) notification. -/
theorem claim8_dry_run_frame (cfg : Config) (env : Env)
    (hdry : cfg.dry_run = true)
    (hp : (get_projects cfg env).1 ≠ [])
    (hw : env.writeManifestOk = true) :
    (∀ e ∈ (run_backup cfg env).events, e.isIrreversibleStep = false) ∧
    (run_backup cfg env).manifest
      = discoveryOrderManifest cfg env (get_projects cfg env).1 ∧
    (run_backup cfg env).events.any Event.isManifestWrite = true ∧
    Event.emailSend true true ∈ (run_backup cfg env).events := by
  have hnone : ∀ p r, (backup_repo cfg env p r (project_dir cfg p)).escaped = none :=
    fun p r => backup_repo_escaped_dry cfg env p r _ hdry
  have hesc := (processProjects_spec cfg env (get_projects cfg env).1 hnone).2
  have htry := run_backup_try_complete cfg env hp hesc hw
  have hsuc : (run_backup_try cfg env).success = true := by rw [htry]
  have hdisk : (run_backup_try cfg env).manifestOnDisk = true := by rw [htry]
  refine ⟨?_, run_backup_manifest_discovery cfg env hnone, ?_, ?_⟩
  · intro e he
    rw [run_backup_events] at he
    simp only [List.mem_append] at he
    rcases he with (he | he) | he
    · rw [htry] at he
      simp only [List.mem_append] at he
      rcases he with (he | he) | he
      · exact (isLog_elim (get_projects_isLog cfg env e he)).2.1
      · exact processProjects_dry_noIrrev cfg env hdry (get_projects cfg env).1 e he
      · exact (write_manifest_no_email_rm cfg e he).2.2
    · exact (send_email_no_mw_rm_irrev cfg env _ _ e he).2.2
    · rw [hsuc, if_pos rfl, delete_local_dry cfg hdry] at he
      simp only [List.mem_singleton] at he
      subst he; rfl
  · rw [run_backup_any_mw, hdisk]
  · rw [run_backup_events]
    refine List.mem_append.mpr (Or.inl (List.mem_append.mpr (Or.inr ?_)))
    rw [hsuc, hdisk]
    exact send_email_mem cfg env true true

theorem claim8_dry_run_frame_witness :
    cfgW8.dry_run = true ∧ (get_projects cfgW8 envW).1 ≠ [] ∧
    envW.writeManifestOk = true ∧
    (run_backup cfgW8 envW).manifest
      = discoveryOrderManifest cfgW8 envW (get_projects cfgW8 envW).1 := by
  refine ⟨rfl, by decide, rfl, ?_⟩
  exact (claim8_dry_run_frame cfgW8 envW rfl (by decide) rfl).2.1

/-- C9: a transport failure (`requests.RequestException`) in
`listProjects` or `listRepositories(project)` makes the call return an
empty collection and log the failure.  Both embeddings are total Lean
functions: the exception is consumed by the `except` clause inside the
call and never propagates past its boundary. -/
theorem claim9_catalog_transport_failure (cfg : Config) (env : Env)
    (e1 e2 project : String)
    (h1 : env.projectsFetch = Except.error e1)
    (h2 : env.reposFetch project = Except.error e2) :
    (get_projects cfg env).1 = [] ∧
    Event.logError ("Failed to fetch projects: " ++ e1) ∈ (get_projects cfg env).2 ∧
    (get_repos_by_project cfg env project).1 = [] ∧
    Event.logError ("Failed to fetch repos for " ++ project ++ ": " ++ e2)
      ∈ (get_repos_by_project cfg env project).2 := by
  refine ⟨?_, ?_, ?_, ?_⟩ <;> simp [get_projects, get_repos_by_project, h1, h2]

theorem claim9_catalog_transport_failure_witness :
    envERR.projectsFetch = Except.error "connection refused" ∧
    envERR.reposFetch "A" = Except.error "connection refused" ∧
    (get_projects cfgW envERR).1 = [] ∧
    (get_repos_by_project cfgW envERR "A").1 = [] := by
  have h := claim9_catalog_transport_failure cfgW envERR
    "connection refused" "connection refused" "A" rfl rfl
  exact ⟨rfl, rfl, h.1, h.2.2.1⟩

/-- C10: when the clone or the compress step of a repository does not
succeed, no upload to any destination is attempted for that repository:
the upload dispatch is reached only after both steps succeeded. -/
theorem claim10_upload_only_after_success (cfg : Config) (env : Env)
    (project : String) (repo : Repo) (pdir : String)
    (h : env.cloneOutcome project repo.name ≠ StepOutcome.ok ∨
         env.zipOutcome project repo.name ≠ StepOutcome.ok) :
    ∀ e ∈ (backup_repo cfg env project repo pdir).events, e.isUpload = false := by
  intro e he
  simp only [backup_repo, List.mem_cons] at he
  rcases he with rfl | he
  · rfl
  · cases hdry : cfg.dry_run with
    | true =>
        simp only [backup_repo_steps, hdry, if_true, List.mem_singleton] at he
        subst he; rfl
    | false =>
        cases hco : env.cloneOutcome project repo.name with
        | ok =>
            cases hzo : env.zipOutcome project repo.name with
            | ok =>
                rcases h with h | h
                · exact absurd hco h
                · exact absurd hzo h
            | fail =>
                cases hte : env.tempExists project repo.name <;>
                  simp only [backup_repo_steps, hdry, hco, hzo, hte, if_true, if_false,
                    Bool.false_eq_true, List.append_nil, List.mem_append, List.mem_cons,
                    List.mem_singleton, List.not_mem_nil, or_false] at he <;>
                  (repeat'
                    first
                    | (subst he; rfl)
                    | rcases he with he | he)
            | escape =>
                cases hte : env.tempExists project repo.name <;>
                  simp only [backup_repo_steps, hdry, hco, hzo, hte, if_true, if_false,
                    Bool.false_eq_true, List.append_nil, List.mem_append, List.mem_cons,
                    List.mem_singleton, List.not_mem_nil, or_false] at he <;>
                  (repeat'
                    first
                    | (subst he; rfl)
                    | rcases he with he | he)
        | fail =>
            cases hte : env.tempExists project repo.name <;>
              simp only [backup_repo_steps, hdry, hco, hte, if_true, if_false,
                Bool.false_eq_true, List.append_nil, List.mem_append, List.mem_cons,
                List.mem_singleton, List.not_mem_nil, or_false] at he <;>
              (repeat'
                first
                | (subst he; rfl)
                | rcases he with he | he)
        | escape =>
            cases hte : env.tempExists project repo.name <;>
              simp only [backup_repo_steps, hdry, hco, hte, if_true, if_false,
                Bool.false_eq_true, List.append_nil, List.mem_append, List.mem_cons,
                List.mem_singleton, List.not_mem_nil, or_false] at he <;>
              (repeat'
                first
                | (subst he; rfl)
                | rcases he with he | he)

theorem claim10_upload_only_after_success_witness :
    (envW.cloneOutcome "A" repoR2.name ≠ StepOutcome.ok ∨
     envW.zipOutcome "A" repoR2.name ≠ StepOutcome.ok) ∧
    (∀ e ∈ (backup_repo cfgW envW "A" repoR2 (project_dir cfgW "A")).events,
      e.isUpload = false) := by
  have h : envW.cloneOutcome "A" repoR2.name ≠ StepOutcome.ok := by decide
  exact ⟨Or.inl h, claim10_upload_only_after_success cfgW envW "A" repoR2
    (project_dir cfgW "A") (Or.inl h)⟩

/-- C3 counterexample: a concrete run whose enumeration returns no
projects.  The claim says such a run still performs the manifest write;
in fact the early `return` at line 205 of `backup.py` skips
`write_manifest` entirely (no `manifestWrite` event occurs), while the
notification is still sent. -/
theorem claim3_counterexample :
    (get_projects cfgW envC3).1 = [] ∧
    (run_backup cfgW envC3).events.any Event.isManifestWrite = false ∧
    ((run_backup cfgW envC3).events.filter Event.isEmailSend).length = 1 := by
  exact ⟨rfl, rfl, rfl⟩

/-- C3 amended: when enumeration returns no projects after exclusion, or
an error escapes per-repository isolation, the remaining processing is
aborted and the manifest write is skipped — no `manifestWrite` event
occurs — but the run still performs the notification exactly once, with
no manifest attached. -/
theorem claim3_amended_abort_skips_write_still_notifies (cfg : Config) (env : Env)
    (h : (get_projects cfg env).1 = [] ∨
         (processProjects cfg env (get_projects cfg env).1).escaped ≠ none) :
    (run_backup cfg env).events.any Event.isManifestWrite = false ∧
    ((run_backup cfg env).events.filter Event.isEmailSend).length = 1 ∧
    (∀ s a, Event.emailSend s a ∈ (run_backup cfg env).events → a = false) := by
  have hdisk : (run_backup_try cfg env).manifestOnDisk = false := by
    by_cases hp : (get_projects cfg env).1 = []
    · rw [run_backup_try_empty cfg env hp]
    · rcases hescv : (processProjects cfg env (get_projects cfg env).1).escaped
        with _ | msg
      · rcases h with hp2 | hesc
        · exact absurd hp2 hp
        · exact absurd hescv hesc
      · rw [run_backup_try_escape cfg env msg hp hescv]
  refine ⟨?_, ?_, ?_⟩
  · rw [run_backup_any_mw, hdisk]
  · rw [run_backup_email_filter]; rfl
  · intro s a hmem
    rw [(run_backup_emailSend_inv cfg env s a hmem).2, hdisk]

theorem claim3_amended_witness :
    ((get_projects cfgW envC3).1 = [] ∨
     (processProjects cfgW envC3 (get_projects cfgW envC3).1).escaped ≠ none) ∧
    ((run_backup cfgW envC3).events.filter Event.isEmailSend).length = 1 := by
  have h : (get_projects cfgW envC3).1 = [] := rfl
  exact ⟨Or.inl h,
    (claim3_amended_abort_skips_write_still_notifies cfgW envC3 (Or.inl h)).2.1⟩

/-- C5 counterexample: with the credential absent, the program prints an
error and `main` returns normally — no run is performed, yet CPython
exits with code 0, not non-zero as the claim states (no `sys.exit` call
exists in the program). -/
theorem claim5_counterexample :
    (main cfgW none envW).run = none ∧ (main cfgW none envW).exit_code = 0 :=
  ⟨rfl, rfl⟩

/-- C5 amended: the process exit code is 0 in every case — for any
completed run regardless of repository-level failures, and also when the
required source-control API credential is missing or empty; in the latter
case the program still aborts before any run phase begins (no run is
performed), but exits 0. -/
theorem claim5_amended_exit_zero_always (cfg : Config) (pat : Option String)
    (env : Env) :
    (main cfg pat env).exit_code = 0 ∧
    ((main cfg pat env).run = none ↔ (pat = none ∨ pat = some "")) := by
  cases pat with
  | none => exact ⟨rfl, by simp [main]⟩
  | some t =>
      by_cases ht : t = ""
      · subst ht
        exact ⟨rfl, by simp [main]⟩
      · refine ⟨?_, ?_⟩
        · simp [main, ht]
        · simp [main, ht]

end AzureDevOpsBackup
